import Mathlib

/-!
Verification of the map marker clustering and nearest-location-ranking engine
of the `50-top-pizzas` repository, as a shallow embedding in Lean.

Conventions of the embedding:
* JavaScript numbers are modelled as real numbers (`ℝ`); `Math.sin`, `Math.cos`,
  `Math.sqrt`, `Math.atan2` and `Math.PI` are modelled by the corresponding
  exact real functions.
* A JavaScript object record `Record<string, T>` iterated with `Object.entries`
  is modelled as an association list `List (String × T)` in insertion order.
* The dataset's convention of treating falsy (`0`) latitude/longitude as
  "no location data" is modelled by comparison with `0`.
-/

namespace PizzaMap

open scoped List

/-- Award entry of a pizzeria (interface `Award` in `FullMap`). -/
structure Award where
  rank : Option ℤ
  name : String

/-- Geographic point of a pizzeria (interface `Location` in `FullMap`). -/
structure Location where
  address : Option String
  lat : ℝ
  lng : ℝ

/-- Named pizzeria with its branches (interface `Pizzeria` in `FullMap`). -/
structure Pizzeria where
  name : String
  url : String
  locations : List Location
  awards : Option (List Award)

/-- Value of one city entry of the dataset (`{ pizzerias: Pizzeria[] }`). -/
structure CityInfo where
  pizzerias : List Pizzeria

/-- The root dataset `cityData : Record<string, { pizzerias: Pizzeria[] }>`,
as an association list in insertion order. -/
abbrev CityData := List (String × CityInfo)

/-- Bookmark record (interface `BookmarkedLocation` in `FullMap`); only the
identifying fields are consumed by the core. -/
structure Bookmark where
  pizzeriaName : String
  city : String
  locationIndex : ℕ

/-- Model of `Math.atan2 y x`, via the complex argument function, which agrees
with the JavaScript two-argument arctangent on its whole domain (including
`atan2 0 0 = 0`). -/
noncomputable def atan2 (y x : ℝ) : ℝ := Complex.arg ⟨x, y⟩

/-- Embedding of `calculateDistance` (src/unnamed/part_004, lines 669-680):
haversine distance in kilometres between two coordinates, Earth radius 6371. -/
noncomputable def calculateDistance (lat1 lon1 lat2 lon2 : ℝ) : ℝ :=
  let R : ℝ := 6371
  let dLat := (lat2 - lat1) * Real.pi / 180
  let dLon := (lon2 - lon1) * Real.pi / 180
  let a := Real.sin (dLat / 2) * Real.sin (dLat / 2) +
    Real.cos (lat1 * Real.pi / 180) * Real.cos (lat2 * Real.pi / 180) *
    Real.sin (dLon / 2) * Real.sin (dLon / 2)
  let c := 2 * atan2 (Real.sqrt a) (Real.sqrt (1 - a))
  R * c

/-- Payload `data` of one entry of the `allMarkers` array assembled in the
marker-update effect (src/unnamed/part_004, lines 229-268). -/
structure MarkerData where
  cityName : String
  pizzeria : Pizzeria
  location : Location
  idx : ℕ

/-- One entry of the `allMarkers` array handed to `clusterMarkers`. -/
structure Marker where
  lat : ℝ
  lng : ℝ
  isBookmarked : Bool
  data : MarkerData

/-- Pixel-distance threshold as a step function of the zoom level
(src/unnamed/part_004, lines 156-164). -/
def pixelDistance (zoom : ℤ) : ℕ :=
  if zoom < 4 then 150
  else if zoom < 6 then 100
  else if zoom < 8 then 80
  else if zoom < 10 then 60
  else if zoom < 12 then 40
  else if zoom < 14 then 25
  else if zoom < 16 then 15
  else 0

/-- Approximate pixel distance between two markers at a zoom level
(src/unnamed/part_004, lines 188-194): Euclidean lat/lng distance scaled by
`2^zoom * 256 / 360`. -/
noncomputable def approxPixelDistance (zoom : ℤ) (a b : Marker) : ℝ :=
  Real.sqrt ((a.lat - b.lat) ^ 2 + (a.lng - b.lng) ^ 2) * (2 : ℝ) ^ zoom * 256 / 360

/-- Test `approxPixelDistance < pixelDistance` used by the greedy grouping
loop (src/unnamed/part_004, line 196). -/
noncomputable def nearB (zoom : ℤ) (pd : ℕ) (a b : Marker) : Bool :=
  decide (approxPixelDistance zoom a b < (pd : ℝ))

/-- Greedy single-pass grouping loop of `clusterMarkers`
(src/unnamed/part_004, lines 168-205). The imperative loop with its `used`
index set is embedded as recursion on the list of still-unclustered markers,
in input order: the head starts a new group; a bookmarked head is pushed as a
singleton immediately; otherwise the head absorbs every later unclustered
non-bookmarked marker within the pixel threshold, and the loop continues on
the unabsorbed remainder. -/
noncomputable def clusterLoop (zoom : ℤ) (pd : ℕ) : List Marker → List (List Marker)
  | [] => []
  | h :: t =>
    if h.isBookmarked then
      [h] :: clusterLoop zoom pd t
    else
      (h :: t.filter fun m => !m.isBookmarked && nearB zoom pd h m) ::
        clusterLoop zoom pd (t.filter fun m => m.isBookmarked || !nearB zoom pd h m)
termination_by l => l.length
decreasing_by
  · simp only [List.length_cons]
    exact Nat.lt_succ_of_le (Nat.le_refl _)
  · simp only [List.length_cons]
    exact Nat.lt_succ_of_le (List.length_filter_le _ _)

/-- Embedding of `clusterMarkers` (src/unnamed/part_004, lines 143-206):
at a zero pixel threshold (max zoom) every marker is its own singleton group;
otherwise the greedy grouping loop runs. -/
noncomputable def clusterMarkers (markers : List Marker) (zoom : ℤ) : List (List Marker) :=
  if pixelDistance zoom = 0 then markers.map fun m => [m]
  else clusterLoop zoom (pixelDistance zoom) markers

/-- Embedding of `isLocationBookmarked` (src/unnamed/part_004, lines
136-140): membership test of an identity triple in the bookmark list. -/
def isLocationBookmarked (bookmarks : List Bookmark)
    (pizzeriaName cityName : String) (locationIndex : ℕ) : Bool :=
  bookmarks.any fun b =>
    b.pizzeriaName == pizzeriaName && b.city == cityName && b.locationIndex == locationIndex

/-- Character of one decimal digit value (`0 ≤ n < 10`), used by the model of
JavaScript number-to-string conversion. -/
def digitChar (n : ℕ) : Char := Char.ofNat (48 + n)

/-- Fuel-indexed decimal digit list of a natural number (most significant
digit first); the fuel only bounds the recursion depth and any `fuel > n`
yields the exact decimal representation. -/
def natDigitsAux : ℕ → ℕ → List Char
  | 0, _ => []
  | fuel + 1, n =>
    if n < 10 then [digitChar n]
    else natDigitsAux fuel (n / 10) ++ [digitChar (n % 10)]

/-- Model of JavaScript number-to-string conversion (template literal
`${idx}`) for a nonnegative integer: its decimal digit string. -/
def jsNatToString (n : ℕ) : String := ⟨natDigitsAux (n + 1) n⟩

/-- Marker identity key `${cityName}-${pizzeria.name}-${idx}`
(src/unnamed/part_004, lines 286, 369 and 712). -/
def buildMarkerKey (cityName pizzeriaName : String) (idx : ℕ) : String :=
  cityName ++ "-" ++ pizzeriaName ++ "-" ++ jsNatToString idx

/-- Model of JavaScript `String.prototype.split` with a single-character
separator: split at every occurrence, keeping empty segments. -/
def jsSplit (sep : Char) (s : String) : List String :=
  (s.data.splitOn sep).map fun l => ⟨l⟩

/-- Model of JavaScript `Array.prototype.join` with a string separator. -/
def jsJoin (sep : String) (l : List String) : String :=
  ⟨List.intercalate sep.data (l.map String.data)⟩

/-- Model of JavaScript `parseInt` restricted to decimal digit strings
(the only shape produced by the marker-key builder). -/
def jsParseInt (s : String) : ℕ :=
  s.data.foldl (fun acc c => acc * 10 + (c.toNat - 48)) 0

/-- Embedding of the marker-key parser of the bookmark-icon effect
(src/unnamed/part_004, lines 504-508): split on `-`; the first segment is
the city, the last segment parsed as integer is the location index, and the
middle segments rejoined with `-` form the pizzeria name. -/
def parseMarkerKey (key : String) : String × String × ℕ :=
  let parts := jsSplit '-' key
  (parts.headD "", jsJoin "-" ((parts.drop 1).dropLast), jsParseInt (parts.getLastD ""))

/-- Rectangular lat/lng viewport bounds; model of the Leaflet
`LatLngBounds` value supplied by the map-rendering library. -/
structure Bounds where
  south : ℝ
  west : ℝ
  north : ℝ
  east : ℝ

/-- Model of Leaflet `LatLngBounds.pad(ratio)` (external library, per its
documented semantics): expand the box by `ratio` of its height/width in each
direction. -/
def Bounds.pad (b : Bounds) (ratio : ℝ) : Bounds :=
  { south := b.south - |b.south - b.north| * ratio
    west := b.west - |b.west - b.east| * ratio
    north := b.north + |b.south - b.north| * ratio
    east := b.east + |b.west - b.east| * ratio }

/-- Model of Leaflet `LatLngBounds.contains` for a single point. -/
noncomputable def Bounds.containsB (b : Bounds) (lat lng : ℝ) : Bool :=
  decide (b.south ≤ lat ∧ lat ≤ b.north ∧ b.west ≤ lng ∧ lng ≤ b.east)

/-- Viewport culling test of the marker collection loop
(src/unnamed/part_004, lines 250-256): no bounds reported yet means no
filtering; otherwise test containment in the bounds padded by 50%. -/
noncomputable def inViewport (viewport : Option Bounds) (lat lng : ℝ) : Bool :=
  match viewport with
  | none => true
  | some b => (b.pad (1 / 2)).containsB lat lng

/-- Embedding of the `citiesToDisplay` selection (src/unnamed/part_004,
lines 224-226): a selected city present in the dataset restricts the display
to that single entry, otherwise the whole dataset is displayed. -/
def citiesToDisplay (cityData : CityData) (selectedCity : Option String) : CityData :=
  match selectedCity with
  | none => cityData
  | some c =>
    match cityData.find? (fun ce => ce.1 == c) with
    | some ce => [ce]
    | none => cityData

/-- Marker record built for one well-formed location
(src/unnamed/part_004, lines 258-265). -/
def mkMarker (bookmarks : List Bookmark) (cityName : String) (pz : Pizzeria)
    (loc : Location) (idx : ℕ) : Marker :=
  { lat := loc.lat, lng := loc.lng,
    isBookmarked := isLocationBookmarked bookmarks pz.name cityName idx,
    data := ⟨cityName, pz, loc, idx⟩ }

/-- Embedding of the `allMarkers` collection loop of the marker-update
effect (src/unnamed/part_004, lines 229-268): iterate cities, pizzerias and
indexed locations; skip malformed (falsy lat/lng) locations; apply viewport
culling; record the bookmark flag. -/
noncomputable def collectMarkers (cityData : CityData) (selectedCity : Option String)
    (bookmarks : List Bookmark) (viewport : Option Bounds) : List Marker :=
  (citiesToDisplay cityData selectedCity).flatMap fun ce =>
    ce.2.pizzerias.flatMap fun pz =>
      pz.locations.enum.filterMap fun li =>
        if li.2.lat = 0 ∨ li.2.lng = 0 then none
        else if inViewport viewport li.2.lat li.2.lng then
          some (mkMarker bookmarks ce.1 pz li.2 li.1)
        else none

/-- One entry of the ranked nearest-pizzerias list
(src/unnamed/part_004, lines 686-694). -/
structure NearestItem where
  name : String
  city : String
  distance : ℝ
  location : Location
  url : String
  markerKey : String
  awards : Option (List Award)

/-- Flattened list of every (pizzeria, location) pair of the whole dataset
with its computed distance, in dataset order, skipping malformed locations
(src/unnamed/part_004, lines 696-717). -/
noncomputable def rankCandidates (cityData : CityData) (userLat userLng : ℝ) :
    List NearestItem :=
  cityData.flatMap fun ce =>
    ce.2.pizzerias.flatMap fun pz =>
      pz.locations.enum.filterMap fun li =>
        if li.2.lat = 0 ∨ li.2.lng = 0 then none
        else some
          { name := pz.name
            city := ce.1
            distance := calculateDistance userLat userLng li.2.lat li.2.lng
            location := li.2
            url := pz.url
            markerKey := buildMarkerKey ce.1 pz.name li.1
            awards := pz.awards }

/-- Embedding of `findNearestPizzerias` (src/unnamed/part_004, lines
682-728): flatten the whole dataset with distances, keep items within
`maxDistance`, and stable-sort ascending by distance (JavaScript
`Array.prototype.sort` is stable, embedded as `mergeSort`). -/
noncomputable def findNearestPizzerias (cityData : CityData)
    (userLat userLng maxDistance : ℝ) : List NearestItem :=
  ((rankCandidates cityData userLat userLng).filter fun p =>
    decide (p.distance ≤ maxDistance)).mergeSort fun a b =>
    decide (a.distance ≤ b.distance)

/-- Render-handle bookkeeping of the marker-update effect: `markersMapRef`
(marker key to handle) plus `clusterMarkersRef` (anonymous cluster handles).
Live Leaflet marker objects are modelled as allocation ids drawn from a
counter, so that a recreated marker is distinguishable from the handle it
replaces. -/
structure RenderState where
  markersMap : List (String × ℕ)
  clusterHandles : List ℕ
  nextId : ℕ

/-- Processing of one group of the new partition by the marker-update effect
(src/unnamed/part_004, lines 274-446): a singleton group creates a fresh
keyed marker handle; a multi-member group creates a fresh anonymous cluster
handle. -/
def reconcileStep (s : RenderState) (c : List Marker) : RenderState :=
  match c with
  | [m] =>
    { s with
      markersMap := s.markersMap ++
        [(buildMarkerKey m.data.cityName m.data.pizzeria.name m.data.idx, s.nextId)]
      nextId := s.nextId + 1 }
  | _ =>
    { s with
      clusterHandles := s.clusterHandles ++ [s.nextId]
      nextId := s.nextId + 1 }

/-- Embedding of the render-handle lifecycle of the marker-update effect
(src/unnamed/part_004, lines 213-218 then 274-446): every existing single
and cluster handle is removed (`marker.remove()`), the key map is cleared,
and a fresh handle is created for every group of the new partition. Returns
the new state and the list of destroyed handles. -/
def reconcileMarkers (st : RenderState) (clusters : List (List Marker)) :
    RenderState × List ℕ :=
  (clusters.foldl reconcileStep
    { markersMap := [], clusterHandles := [], nextId := st.nextId },
   st.markersMap.map (fun e => e.2) ++ st.clusterHandles)

/-- Concrete location fixture used in closed witness statements. -/
def locEx : Location := ⟨none, 1, 1⟩

/-- Concrete pizzeria fixture used in closed witness statements. -/
def pzEx : Pizzeria := ⟨"P", "u", [locEx], none⟩

/-- Concrete bookmarked marker fixture used in closed witness statements. -/
def mEx : Marker := { lat := 1, lng := 1, isBookmarked := true, data := ⟨"X", pzEx, locEx, 0⟩ }

/-- Concrete single-city dataset fixture used in closed witness and
counterexample statements. -/
def cdEx : CityData := [("a", ⟨[pzEx]⟩)]

/-- Concrete pizzeria fixture named `PA`. -/
def pzA : Pizzeria := ⟨"PA", "u", [locEx], none⟩

/-- Concrete pizzeria fixture named `PD`. -/
def pzD : Pizzeria := ⟨"PD", "u", [locEx], none⟩

/-- Concrete marker fixture with identity key `X-PA-0`. -/
def mA : Marker := { lat := 1, lng := 1, isBookmarked := false, data := ⟨"X", pzA, locEx, 0⟩ }

/-- Concrete marker fixture with identity key `X-PD-0`. -/
def mD : Marker := { lat := 2, lng := 2, isBookmarked := false, data := ⟨"X", pzD, locEx, 0⟩ }

/-- Concrete previous render state holding handles 0, 1 and 2 for the keys
`X-PA-0`, `X-PB-0` and `X-PC-0`. -/
def stEx : RenderState := ⟨[("X-PA-0", 0), ("X-PB-0", 1), ("X-PC-0", 2)], [], 3⟩

/-- Concrete viewport bounds fixture used in closed witness statements. -/
def bEx : Bounds := ⟨0, 0, 2, 2⟩

lemma calculateDistance_comm (lat1 lon1 lat2 lon2 : ℝ) :
    calculateDistance lat1 lon1 lat2 lon2 = calculateDistance lat2 lon2 lat1 lon1 := by
  simp only [calculateDistance]
  have h1 : (lat1 - lat2) * Real.pi / 180 / 2 = -((lat2 - lat1) * Real.pi / 180 / 2) := by
    ring
  have h2 : (lon1 - lon2) * Real.pi / 180 / 2 = -((lon2 - lon1) * Real.pi / 180 / 2) := by
    ring
  have ha :
      Real.sin ((lat1 - lat2) * Real.pi / 180 / 2) * Real.sin ((lat1 - lat2) * Real.pi / 180 / 2) +
        Real.cos (lat2 * Real.pi / 180) * Real.cos (lat1 * Real.pi / 180) *
        Real.sin ((lon1 - lon2) * Real.pi / 180 / 2) * Real.sin ((lon1 - lon2) * Real.pi / 180 / 2)
      = Real.sin ((lat2 - lat1) * Real.pi / 180 / 2) * Real.sin ((lat2 - lat1) * Real.pi / 180 / 2) +
        Real.cos (lat1 * Real.pi / 180) * Real.cos (lat2 * Real.pi / 180) *
        Real.sin ((lon2 - lon1) * Real.pi / 180 / 2) * Real.sin ((lon2 - lon1) * Real.pi / 180 / 2) := by
    rw [h1, h2, Real.sin_neg, Real.sin_neg]
    ring
  rw [ha]

lemma calculateDistance_self (lat lon : ℝ) :
    calculateDistance lat lon lat lon = 0 := by
  simp only [calculateDistance, sub_self, zero_mul, zero_div, Real.sin_zero,
    mul_zero, zero_add, add_zero, Real.sqrt_zero, sub_zero, Real.sqrt_one]
  have h1 : atan2 0 1 = 0 := by
    have : (⟨1, 0⟩ : ℂ) = (1 : ℂ) := by
      apply Complex.ext <;> simp
    simp only [atan2, this, Complex.arg_one]
  rw [h1, mul_zero, mul_zero]

lemma atan2_nonneg (y x : ℝ) (hy : 0 ≤ y) : 0 ≤ atan2 y x :=
  Complex.arg_nonneg_iff.mpr hy

lemma calculateDistance_nonneg (lat1 lon1 lat2 lon2 : ℝ) :
    0 ≤ calculateDistance lat1 lon1 lat2 lon2 := by
  simp only [calculateDistance]
  exact mul_nonneg (by norm_num)
    (mul_nonneg (by norm_num) (atan2_nonneg _ _ (Real.sqrt_nonneg _)))

lemma flatten_map_singleton {α : Type} (l : List α) : (l.map fun a => [a]).flatten = l := by
  induction l with
  | nil => simp
  | cons h t ih => simp [ih]

lemma clusterLoop_join_perm (zoom : ℤ) (pd : ℕ) (l : List Marker) :
    (clusterLoop zoom pd l).flatten ~ l := by
  suffices h : ∀ n (l : List Marker), l.length ≤ n → (clusterLoop zoom pd l).flatten ~ l from
    h l.length l le_rfl
  intro n
  induction n with
  | zero =>
    intro l hl
    have hnil : l = [] := List.length_eq_zero.mp (Nat.le_zero.mp hl)
    subst hnil
    simp [clusterLoop]
  | succ n ih =>
    intro l hl
    cases l with
    | nil => simp [clusterLoop]
    | cons h t =>
      simp only [List.length_cons, Nat.succ_le_succ_iff] at hl
      simp only [clusterLoop]
      by_cases hb : h.isBookmarked = true
      case pos =>
        rw [if_pos hb]
        simpa using (ih t hl).cons h
      case neg =>
        rw [if_neg hb]
        simp only [List.flatten_cons, List.cons_append]
        refine List.Perm.cons h ?_
        have hrest : (clusterLoop zoom pd
            (t.filter fun m => m.isBookmarked || !nearB zoom pd h m)).flatten ~
            t.filter fun m => m.isBookmarked || !nearB zoom pd h m :=
          ih _ (le_trans (List.length_filter_le _ _) hl)
        have hpred : (fun m => m.isBookmarked || !nearB zoom pd h m) =
            fun m => !(!m.isBookmarked && nearB zoom pd h m) := by
          funext m
          cases m.isBookmarked <;> cases nearB zoom pd h m <;> rfl
        calc (t.filter fun m => !m.isBookmarked && nearB zoom pd h m) ++
              (clusterLoop zoom pd (t.filter fun m => m.isBookmarked || !nearB zoom pd h m)).flatten
            ~ (t.filter fun m => !m.isBookmarked && nearB zoom pd h m) ++
              t.filter fun m => m.isBookmarked || !nearB zoom pd h m :=
              List.Perm.append_left _ hrest
          _ ~ t := by
              rw [hpred]
              exact List.filter_append_perm _ t

lemma clusterLoop_ne_nil (zoom : ℤ) (pd : ℕ) (l : List Marker) :
    ∀ g ∈ clusterLoop zoom pd l, g ≠ [] := by
  suffices h : ∀ n (l : List Marker), l.length ≤ n → ∀ g ∈ clusterLoop zoom pd l, g ≠ [] from
    h l.length l le_rfl
  intro n
  induction n with
  | zero =>
    intro l hl
    have hnil : l = [] := List.length_eq_zero.mp (Nat.le_zero.mp hl)
    subst hnil
    simp [clusterLoop]
  | succ n ih =>
    intro l hl
    cases l with
    | nil => simp [clusterLoop]
    | cons h t =>
      simp only [List.length_cons, Nat.succ_le_succ_iff] at hl
      simp only [clusterLoop]
      by_cases hb : h.isBookmarked = true
      case pos =>
        rw [if_pos hb]
        intro g hg
        rcases List.mem_cons.mp hg with rfl | hg
        · simp
        · exact ih t hl g hg
      case neg =>
        rw [if_neg hb]
        intro g hg
        rcases List.mem_cons.mp hg with rfl | hg
        · simp
        · exact ih _ (le_trans (List.length_filter_le _ _) hl) g hg

lemma clusterLoop_bookmarked_eq (zoom : ℤ) (pd : ℕ) (l : List Marker) :
    ∀ g ∈ clusterLoop zoom pd l, ∀ m ∈ g, m.isBookmarked = true → g = [m] := by
  suffices h : ∀ n (l : List Marker), l.length ≤ n →
      ∀ g ∈ clusterLoop zoom pd l, ∀ m ∈ g, m.isBookmarked = true → g = [m] from
    h l.length l le_rfl
  intro n
  induction n with
  | zero =>
    intro l hl
    have hnil : l = [] := List.length_eq_zero.mp (Nat.le_zero.mp hl)
    subst hnil
    simp [clusterLoop]
  | succ n ih =>
    intro l hl
    cases l with
    | nil => simp [clusterLoop]
    | cons h t =>
      simp only [List.length_cons, Nat.succ_le_succ_iff] at hl
      simp only [clusterLoop]
      by_cases hb : h.isBookmarked = true
      case pos =>
        rw [if_pos hb]
        intro g hg m hm hbm
        rcases List.mem_cons.mp hg with rfl | hg
        · rw [List.mem_singleton.mp hm]
        · exact ih t hl g hg m hm hbm
      case neg =>
        rw [if_neg hb]
        intro g hg m hm hbm
        rcases List.mem_cons.mp hg with rfl | hg
        · rcases List.mem_cons.mp hm with rfl | hm
          · exact absurd hbm hb
          · have hf := (List.mem_filter.mp hm).2
            rw [hbm] at hf
            simp at hf
        · exact ih _ (le_trans (List.length_filter_le _ _) hl) g hg m hm hbm

/-- C10: for every input list of points and every zoom level, the groups
returned by `clusterMarkers` form a partition of the input: joining the
groups yields a permutation of the input (every point appears exactly once,
none dropped or duplicated) and every group is non-empty. -/
theorem clusterMarkers_partition (points : List Marker) (zoom : ℤ) :
    (clusterMarkers points zoom).flatten ~ points ∧
      ∀ g ∈ clusterMarkers points zoom, g ≠ [] := by
  unfold clusterMarkers
  by_cases hz : pixelDistance zoom = 0
  · rw [if_pos hz]
    constructor
    · rw [flatten_map_singleton]
    · intro g hg
      rcases List.mem_map.mp hg with ⟨a, _, rfl⟩
      simp
  · rw [if_neg hz]
    exact ⟨clusterLoop_join_perm zoom _ points, clusterLoop_ne_nil zoom _ points⟩

/-- C10 witness: the partition property evaluated at a concrete input. -/
theorem clusterMarkers_partition_witness :
    ((clusterMarkers [mEx] 3).flatten ~ [mEx]) ∧ ∀ g ∈ clusterMarkers [mEx] 3, g ≠ [] :=
  clusterMarkers_partition [mEx] 3

/-- C2: at every zoom level at which clustering is enabled (nonzero pixel
threshold), a bookmarked point always appears as its own singleton group in
the output of `clusterMarkers`, and any group containing it is exactly that
singleton — it is never merged and never absorbs others. -/
theorem clusterMarkers_bookmarked_singleton (points : List Marker) (zoom : ℤ) (p : Marker)
    (hp : p ∈ points) (hb : p.isBookmarked = true) (hz : pixelDistance zoom ≠ 0) :
    [p] ∈ clusterMarkers points zoom ∧
      ∀ g ∈ clusterMarkers points zoom, p ∈ g → g = [p] := by
  have hcm : clusterMarkers points zoom = clusterLoop zoom (pixelDistance zoom) points := by
    simp [clusterMarkers, hz]
  rw [hcm]
  have h2 : ∀ g ∈ clusterLoop zoom (pixelDistance zoom) points, p ∈ g → g = [p] :=
    fun g hg hpg => clusterLoop_bookmarked_eq zoom _ points g hg p hpg hb
  refine ⟨?_, h2⟩
  have hjoin := clusterLoop_join_perm zoom (pixelDistance zoom) points
  have hpj : p ∈ (clusterLoop zoom (pixelDistance zoom) points).flatten := hjoin.mem_iff.mpr hp
  rcases List.mem_flatten.mp hpj with ⟨g, hg, hpg⟩
  exact (h2 g hg hpg) ▸ hg

/-- C2 witness: a concrete bookmarked marker is its own singleton group at a
zoom with clustering enabled. -/
theorem clusterMarkers_bookmarked_singleton_witness :
    [mEx] ∈ clusterMarkers [mEx] 3 ∧
      ∀ g ∈ clusterMarkers [mEx] 3, mEx ∈ g → g = [mEx] :=
  clusterMarkers_bookmarked_singleton [mEx] 3 mEx (by simp) rfl (by decide)

/-- C3: at every zoom level at or above the "off" threshold (zoom ≥ 16, pixel
threshold zero), `clusterMarkers` returns exactly one singleton group per
input point, in input order. -/
theorem clusterMarkers_identity_at_max_zoom (points : List Marker) (zoom : ℤ)
    (hz : (16 : ℤ) ≤ zoom) :
    clusterMarkers points zoom = points.map fun m => [m] := by
  have h4 : ¬ zoom < 4 := by omega
  have h6 : ¬ zoom < 6 := by omega
  have h8 : ¬ zoom < 8 := by omega
  have h10 : ¬ zoom < 10 := by omega
  have h12 : ¬ zoom < 12 := by omega
  have h14 : ¬ zoom < 14 := by omega
  have h16 : ¬ zoom < 16 := by omega
  have hpd : pixelDistance zoom = 0 := by
    simp [pixelDistance, h4, h6, h8, h10, h12, h14, h16]
  simp [clusterMarkers, hpd]

/-- C3 witness: at zoom 16 a concrete input yields the identity partition. -/
theorem clusterMarkers_identity_at_max_zoom_witness :
    clusterMarkers [mEx] 16 = [[mEx]] :=
  (clusterMarkers_identity_at_max_zoom [mEx] 16 (by norm_num)).trans rfl

/-- C5: the haversine distance is symmetric in its two coordinates, and the
distance from any coordinate to itself is exactly 0, in the real-number
model of JavaScript floating-point arithmetic. -/
theorem calculateDistance_symm_and_self :
    (∀ lat1 lon1 lat2 lon2 : ℝ,
      calculateDistance lat1 lon1 lat2 lon2 = calculateDistance lat2 lon2 lat1 lon1) ∧
    ∀ lat lon : ℝ, calculateDistance lat lon lat lon = 0 :=
  ⟨calculateDistance_comm, calculateDistance_self⟩

lemma rank_le_trans : ∀ a b c : NearestItem,
    decide (a.distance ≤ b.distance) = true → decide (b.distance ≤ c.distance) = true →
    decide (a.distance ≤ c.distance) = true := by
  intro a b c hab hbc
  simp only [decide_eq_true_eq] at *
  exact le_trans hab hbc

lemma rank_le_total : ∀ a b : NearestItem,
    (decide (a.distance ≤ b.distance) || decide (b.distance ≤ a.distance)) = true := by
  intro a b
  rcases le_total a.distance b.distance with h | h <;> simp [h]

/-- C1: the ranked nearest-pizzerias list is sorted non-decreasing by
distance, every item's distance is at most `maxDistance` (hence no item above
the radius appears), and items at equal distance keep their relative
flattening order: for every distance value, filtering the output at that
distance yields exactly the corresponding slice of the flattened candidate
list, in its original order. -/
theorem findNearest_sorted_bounded_stable (cd : CityData) (ulat ulng maxD : ℝ) :
    (findNearestPizzerias cd ulat ulng maxD).Pairwise
      (fun a b => a.distance ≤ b.distance) ∧
    (∀ p ∈ findNearestPizzerias cd ulat ulng maxD, p.distance ≤ maxD) ∧
    ∀ d : ℝ,
      (findNearestPizzerias cd ulat ulng maxD).filter (fun p => decide (p.distance = d)) =
        ((rankCandidates cd ulat ulng).filter fun p => decide (p.distance ≤ maxD)).filter
          fun p => decide (p.distance = d) := by
  unfold findNearestPizzerias
  refine ⟨?_, ?_, ?_⟩
  · have h := List.sorted_mergeSort rank_le_trans rank_le_total
      ((rankCandidates cd ulat ulng).filter fun p => decide (p.distance ≤ maxD))
    exact h.imp fun hab => of_decide_eq_true hab
  · intro p hp
    exact of_decide_eq_true (List.mem_filter.mp (List.mem_mergeSort.mp hp)).2
  · intro d
    have hself : (((rankCandidates cd ulat ulng).filter fun p =>
        decide (p.distance ≤ maxD)).filter fun p => decide (p.distance = d)).filter
        (fun p => decide (p.distance = d)) =
        ((rankCandidates cd ulat ulng).filter fun p =>
        decide (p.distance ≤ maxD)).filter fun p => decide (p.distance = d) :=
      List.filter_eq_self.mpr fun a ha => (List.mem_filter.mp ha).2
    have hA_pair : (((rankCandidates cd ulat ulng).filter fun p =>
        decide (p.distance ≤ maxD)).filter fun p => decide (p.distance = d)).Pairwise
        (fun a b : NearestItem => decide (a.distance ≤ b.distance)) := by
      apply List.pairwise_of_forall_mem_list
      intro a ha b hb
      have ha2 : a.distance = d := of_decide_eq_true (List.mem_filter.mp ha).2
      have hb2 : b.distance = d := of_decide_eq_true (List.mem_filter.mp hb).2
      simp [ha2, hb2]
    have hsub : (((rankCandidates cd ulat ulng).filter fun p =>
        decide (p.distance ≤ maxD)).filter fun p => decide (p.distance = d)) <+
        ((rankCandidates cd ulat ulng).filter fun p =>
          decide (p.distance ≤ maxD)).mergeSort fun a b =>
          decide (a.distance ≤ b.distance) :=
      List.sublist_mergeSort rank_le_trans rank_le_total hA_pair (List.filter_sublist _)
    have hsub2 := hsub.filter fun p => decide (p.distance = d)
    rw [hself] at hsub2
    have hperm : (((rankCandidates cd ulat ulng).filter fun p =>
        decide (p.distance ≤ maxD)).mergeSort fun a b =>
          decide (a.distance ≤ b.distance)).filter
        (fun p => decide (p.distance = d)) ~
        ((rankCandidates cd ulat ulng).filter fun p =>
          decide (p.distance ≤ maxD)).filter fun p => decide (p.distance = d) :=
      (List.mergeSort_perm _ _).filter _
    exact (hsub2.eq_of_length hperm.length_eq.symm).symm

/-- C1 witness: the sortedness conjunct evaluated on the fixture dataset. -/
theorem findNearest_sorted_bounded_stable_witness :
    (findNearestPizzerias cdEx 1 1 5).Pairwise fun a b => a.distance ≤ b.distance :=
  (findNearest_sorted_bounded_stable cdEx 1 1 5).1

lemma rankCandidates_nonneg (cd : CityData) (u v : ℝ) :
    ∀ p ∈ rankCandidates cd u v, 0 ≤ p.distance := by
  intro p hp
  simp only [rankCandidates, List.mem_flatMap, List.mem_filterMap] at hp
  obtain ⟨ce, -, pz, -, li, -, heq⟩ := hp
  by_cases h : li.2.lat = 0 ∨ li.2.lng = 0
  · rw [if_pos h] at heq
    cases heq
  · rw [if_neg h] at heq
    rcases Option.some_inj.mp heq with rfl
    exact calculateDistance_nonneg u v li.2.lat li.2.lng

lemma rankCandidates_wellformed (cd : CityData) (u v : ℝ) :
    ∀ p ∈ rankCandidates cd u v, p.location.lat ≠ 0 ∧ p.location.lng ≠ 0 := by
  intro p hp
  simp only [rankCandidates, List.mem_flatMap, List.mem_filterMap] at hp
  obtain ⟨ce, -, pz, -, li, -, heq⟩ := hp
  by_cases h : li.2.lat = 0 ∨ li.2.lng = 0
  · rw [if_pos h] at heq
    cases heq
  · rw [if_neg h] at heq
    rcases Option.some_inj.mp heq with rfl
    push_neg at h
    exact h

lemma mem_rankCandidates_of (cd : CityData) (u v : ℝ) (city : String) (ci : CityInfo)
    (pz : Pizzeria) (loc : Location) (idx : ℕ)
    (h1 : (city, ci) ∈ cd) (h2 : pz ∈ ci.pizzerias) (h3 : pz.locations[idx]? = some loc)
    (hlat : loc.lat ≠ 0) (hlng : loc.lng ≠ 0) :
    ({ name := pz.name, city := city,
       distance := calculateDistance u v loc.lat loc.lng, location := loc, url := pz.url,
       markerKey := buildMarkerKey city pz.name idx, awards := pz.awards } : NearestItem) ∈
      rankCandidates cd u v := by
  simp only [rankCandidates, List.mem_flatMap, List.mem_filterMap]
  refine ⟨(city, ci), h1, pz, h2, (idx, loc), ?_, ?_⟩
  · exact List.mk_mem_enum_iff_getElem?.mpr h3
  · rw [if_neg (not_or.mpr ⟨hlat, hlng⟩)]

/-- C4 counterexample: with `maxRadiusKm = 0` and the user coordinate exactly
at the only location of the fixture dataset, the ranker returns a non-empty
list, refuting the claim that the result is always empty. -/
theorem findNearest_zero_radius_cex : findNearestPizzerias cdEx 1 1 0 ≠ [] := by
  have hd : calculateDistance 1 1 1 1 = 0 := calculateDistance_self 1 1
  simp [findNearestPizzerias, rankCandidates, cdEx, pzEx, locEx, hd]

/-- C4 (amended): with `maxRadiusKm = 0` every returned item has computed
distance exactly 0, and when the user coordinate exactly matches a
well-formed location's coordinate the result is non-empty — the zero-distance
item passes the `distance ≤ 0` filter, so no empty list is produced. -/
theorem findNearest_zero_radius (cd : CityData) (city : String) (ci : CityInfo)
    (pz : Pizzeria) (loc : Location) (idx : ℕ)
    (h1 : (city, ci) ∈ cd) (h2 : pz ∈ ci.pizzerias)
    (h3 : pz.locations[idx]? = some loc) (hlat : loc.lat ≠ 0) (hlng : loc.lng ≠ 0) :
    findNearestPizzerias cd loc.lat loc.lng 0 ≠ [] ∧
      ∀ p ∈ findNearestPizzerias cd loc.lat loc.lng 0, p.distance = 0 := by
  unfold findNearestPizzerias
  constructor
  · have hx := mem_rankCandidates_of cd loc.lat loc.lng city ci pz loc idx h1 h2 h3 hlat hlng
    refine List.ne_nil_of_mem (List.mem_mergeSort.mpr (List.mem_filter.mpr ⟨hx, ?_⟩))
    simp [calculateDistance_self]
  · intro p hp
    have hpf := List.mem_mergeSort.mp hp
    have hle : p.distance ≤ 0 := of_decide_eq_true (List.mem_filter.mp hpf).2
    have hge : 0 ≤ p.distance :=
      rankCandidates_nonneg cd loc.lat loc.lng p (List.mem_of_mem_filter hpf)
    linarith

/-- C4 (amended) witness: the amended statement evaluated on the fixture
dataset, user coordinate matching the location exactly. -/
theorem findNearest_zero_radius_witness :
    findNearestPizzerias cdEx locEx.lat locEx.lng 0 ≠ [] ∧
      ∀ p ∈ findNearestPizzerias cdEx locEx.lat locEx.lng 0, p.distance = 0 :=
  findNearest_zero_radius cdEx "a" ⟨[pzEx]⟩ pzEx locEx 0 (by simp [cdEx])
    (by simp [pzEx]) rfl (by norm_num [locEx]) (by norm_num [locEx])

/-- C8: a location with zero (falsy) latitude or longitude is silently
excluded from both the clustering input (the collected marker list) and the
nearest-pizzerias ranking output: every produced marker and every ranked item
carries a location with nonzero latitude and longitude. -/
theorem malformed_locations_excluded (cd : CityData) (sel : Option String)
    (bm : List Bookmark) (vp : Option Bounds) (ulat ulng maxD : ℝ) :
    (∀ m ∈ collectMarkers cd sel bm vp,
      m.data.location.lat ≠ 0 ∧ m.data.location.lng ≠ 0) ∧
    ∀ p ∈ findNearestPizzerias cd ulat ulng maxD,
      p.location.lat ≠ 0 ∧ p.location.lng ≠ 0 := by
  constructor
  · intro m hm
    simp only [collectMarkers, List.mem_flatMap, List.mem_filterMap] at hm
    obtain ⟨ce, -, pz, -, li, -, heq⟩ := hm
    by_cases h : li.2.lat = 0 ∨ li.2.lng = 0
    · rw [if_pos h] at heq
      cases heq
    · rw [if_neg h] at heq
      push_neg at h
      by_cases h2 : inViewport vp li.2.lat li.2.lng = true
      · rw [if_pos h2] at heq
        rcases Option.some_inj.mp heq with rfl
        exact h
      · rw [if_neg h2] at heq
        cases heq
  · intro p hp
    unfold findNearestPizzerias at hp
    exact rankCandidates_wellformed cd ulat ulng p
      (List.mem_of_mem_filter (List.mem_mergeSort.mp hp))

/-- C8 witness: the exclusion property evaluated on the fixture dataset. -/
theorem malformed_locations_excluded_witness :
    (∀ m ∈ collectMarkers cdEx none [] none,
      m.data.location.lat ≠ 0 ∧ m.data.location.lng ≠ 0) ∧
    ∀ p ∈ findNearestPizzerias cdEx 1 1 5,
      p.location.lat ≠ 0 ∧ p.location.lng ≠ 0 :=
  malformed_locations_excluded cdEx none [] none 1 1 5

lemma reconcile_foldl_bound (clusters : List (List Marker)) :
    ∀ (s : RenderState) (b : ℕ),
      (∀ h ∈ s.markersMap.map (fun e => e.2), b ≤ h) →
      (∀ h ∈ s.clusterHandles, b ≤ h) → b ≤ s.nextId →
      (∀ h ∈ (clusters.foldl reconcileStep s).markersMap.map (fun e => e.2), b ≤ h) ∧
      ∀ h ∈ (clusters.foldl reconcileStep s).clusterHandles, b ≤ h := by
  induction clusters with
  | nil =>
    intro s b hm hc hn
    exact ⟨hm, hc⟩
  | cons c cs ih =>
    intro s b hm hc hn
    simp only [List.foldl_cons]
    rcases c with - | ⟨m, - | ⟨m2, t⟩⟩
    · refine ih _ b hm ?_ (by simp [reconcileStep]; omega)
      simp only [reconcileStep]
      intro h hh
      rcases List.mem_append.mp hh with hh | hh
      · exact hc h hh
      · rw [List.mem_singleton.mp hh]
        exact hn
    · refine ih _ b ?_ hc (by simp [reconcileStep]; omega)
      simp only [reconcileStep, List.map_append]
      intro h hh
      rcases List.mem_append.mp hh with hh | hh
      · exact hm h hh
      · simp only [List.map_cons, List.map_nil] at hh
        rw [List.mem_singleton.mp hh]
        exact hn
    · refine ih _ b hm ?_ (by simp [reconcileStep]; omega)
      simp only [reconcileStep]
      intro h hh
      rcases List.mem_append.mp hh with hh | hh
      · exact hc h hh
      · rw [List.mem_singleton.mp hh]
        exact hn

/-- C6 (amended): on each recompute the marker-update effect destroys every
previously rendered handle — including handles whose key persists in the new
partition — and creates a fresh render handle (allocation id at or above the
previous counter) for every group of the new partition; no render handle is
updated in place across recomputes. -/
theorem reconcileMarkers_destroys_all (st : RenderState) (clusters : List (List Marker)) :
    (reconcileMarkers st clusters).2 =
      st.markersMap.map (fun e => e.2) ++ st.clusterHandles ∧
    (∀ h ∈ (reconcileMarkers st clusters).1.markersMap.map (fun e => e.2),
      st.nextId ≤ h) ∧
    ∀ h ∈ (reconcileMarkers st clusters).1.clusterHandles, st.nextId ≤ h := by
  unfold reconcileMarkers
  exact ⟨rfl, reconcile_foldl_bound clusters
    { markersMap := [], clusterHandles := [], nextId := st.nextId } st.nextId
    (by simp) (by simp) le_rfl⟩

/-- C6 (amended) witness: the amended statement evaluated at the concrete
previous render set {A, B, C} and new partition {A, D}. -/
theorem reconcileMarkers_destroys_all_witness :
    (reconcileMarkers stEx [[mA], [mD]]).2 =
      stEx.markersMap.map (fun e => e.2) ++ stEx.clusterHandles ∧
    (∀ h ∈ (reconcileMarkers stEx [[mA], [mD]]).1.markersMap.map (fun e => e.2),
      stEx.nextId ≤ h) ∧
    ∀ h ∈ (reconcileMarkers stEx [[mA], [mD]]).1.clusterHandles, stEx.nextId ≤ h :=
  reconcileMarkers_destroys_all stEx [[mA], [mD]]

/-- C6 counterexample: with previous handles {A↦0, B↦1, C↦2} and new
partition {A, D}, the recompute destroys handles 0, 1 and 2 — not only B and
C — and binds A's key to the fresh handle 3 instead of keeping handle 0,
refuting the claim that only B and C are destroyed and A is updated in
place. -/
theorem reconcileMarkers_cex :
    (reconcileMarkers stEx [[mA], [mD]]).2 ≠ [1, 2] ∧
      (reconcileMarkers stEx [[mA], [mD]]).1.markersMap.map (fun e => e.2) = [3, 4] := by
  exact ⟨by decide, rfl⟩

/-- C7: with no viewport bounds the marker collection applies no viewport
filtering — it contains exactly the markers of every well-formed location of
the displayed cities — and with bounds supplied it is exactly the unfiltered
collection restricted to coordinates inside the bounds padded by 50% in each
direction. -/
theorem collectMarkers_viewport (cd : CityData) (sel : Option String)
    (bm : List Bookmark) (b : Bounds) :
    collectMarkers cd sel bm (some b) =
      (collectMarkers cd sel bm none).filter
        (fun m => (b.pad (1 / 2)).containsB m.lat m.lng) ∧
    ∀ m : Marker, m ∈ collectMarkers cd sel bm none ↔
      ∃ city ci pz idx loc, (city, ci) ∈ citiesToDisplay cd sel ∧ pz ∈ ci.pizzerias ∧
        pz.locations[idx]? = some loc ∧ loc.lat ≠ 0 ∧ loc.lng ≠ 0 ∧
        m = mkMarker bm city pz loc idx := by
  constructor
  · unfold collectMarkers
    rw [List.filter_flatMap]
    congr 1
    funext ce
    rw [List.filter_flatMap]
    congr 1
    funext pz
    rw [List.filter_filterMap]
    congr 1
    funext li
    by_cases h : li.2.lat = 0 ∨ li.2.lng = 0
    · rw [if_pos h, if_pos h]
      rfl
    · rw [if_neg h, if_neg h]
      simp only [inViewport]
      rw [if_pos trivial, Option.filter_some]
      rfl
  · intro m
    constructor
    · intro hm
      simp only [collectMarkers, List.mem_flatMap, List.mem_filterMap] at hm
      obtain ⟨⟨city, ci⟩, hce, pz, hpz, ⟨idx, loc⟩, hli, heq⟩ := hm
      by_cases h : loc.lat = 0 ∨ loc.lng = 0
      · rw [if_pos h] at heq
        cases heq
      · rw [if_neg h] at heq
        simp only [inViewport] at heq
        rw [if_pos trivial] at heq
        push_neg at h
        exact ⟨city, ci, pz, idx, loc, hce, hpz,
          List.mk_mem_enum_iff_getElem?.mp hli, h.1, h.2,
          (Option.some_inj.mp heq).symm⟩
    · rintro ⟨city, ci, pz, idx, loc, h1, h2, h3, h4, h5, rfl⟩
      simp only [collectMarkers, List.mem_flatMap, List.mem_filterMap]
      refine ⟨(city, ci), h1, pz, h2, (idx, loc),
        List.mk_mem_enum_iff_getElem?.mpr h3, ?_⟩
      rw [if_neg (not_or.mpr ⟨h4, h5⟩)]
      simp only [inViewport]
      rw [if_pos trivial]

/-- C7 witness: the viewport characterization evaluated at concrete bounds
and the fixture dataset. -/
theorem collectMarkers_viewport_witness :
    collectMarkers cdEx none [] (some bEx) =
      (collectMarkers cdEx none [] none).filter
        (fun m => (bEx.pad (1 / 2)).containsB m.lat m.lng) ∧
    ∀ m : Marker, m ∈ collectMarkers cdEx none [] none ↔
      ∃ city ci pz idx loc, (city, ci) ∈ citiesToDisplay cdEx none ∧ pz ∈ ci.pizzerias ∧
        pz.locations[idx]? = some loc ∧ loc.lat ≠ 0 ∧ loc.lng ≠ 0 ∧
        m = mkMarker [] city pz loc idx :=
  collectMarkers_viewport cdEx none [] bEx

lemma digitChar_ne_dash (n : ℕ) (h : n < 10) : digitChar n ≠ '-' := by
  interval_cases n <;> decide

lemma digitChar_toNat (n : ℕ) (h : n < 10) : (digitChar n).toNat = 48 + n := by
  interval_cases n <;> decide

lemma natDigitsAux_ne_dash (fuel : ℕ) : ∀ n, ∀ c ∈ natDigitsAux fuel n, ¬ c = '-' := by
  induction fuel with
  | zero =>
    intro n c hc
    simp [natDigitsAux] at hc
  | succ fuel ih =>
    intro n c hc
    simp only [natDigitsAux] at hc
    by_cases h : n < 10
    · rw [if_pos h] at hc
      rw [List.mem_singleton.mp hc]
      exact digitChar_ne_dash n h
    · rw [if_neg h] at hc
      rcases List.mem_append.mp hc with hc | hc
      · exact ih _ c hc
      · rw [List.mem_singleton.mp hc]
        exact digitChar_ne_dash _ (Nat.mod_lt _ (by norm_num))

lemma natDigitsAux_foldl (fuel : ℕ) : ∀ n acc, n < fuel →
    (natDigitsAux fuel n).foldl (fun a c => a * 10 + (c.toNat - 48)) acc =
      acc * 10 ^ (natDigitsAux fuel n).length + n := by
  induction fuel with
  | zero =>
    intro n acc h
    exact absurd h (Nat.not_lt_zero n)
  | succ fuel ih =>
    intro n acc h
    by_cases h10 : n < 10
    · simp only [natDigitsAux, if_pos h10, List.foldl_cons, List.foldl_nil,
        List.length_cons, List.length_nil]
      rw [digitChar_toNat n h10]
      simp only [zero_add, pow_one]
      omega
    · simp only [natDigitsAux, if_neg h10]
      rw [List.foldl_append]
      have hdiv : n / 10 < fuel := by
        have h1 : n / 10 < n := Nat.div_lt_self (by omega) (by norm_num)
        omega
      rw [ih (n / 10) acc hdiv]
      simp only [List.foldl_cons, List.foldl_nil, List.length_append,
        List.length_cons, List.length_nil]
      rw [digitChar_toNat _ (Nat.mod_lt _ (by norm_num))]
      have hmod : 48 + n % 10 - 48 = n % 10 := by omega
      rw [hmod]
      have hsplit : (acc * 10 ^ (natDigitsAux fuel (n / 10)).length + n / 10) * 10 + n % 10 =
          acc * 10 ^ ((natDigitsAux fuel (n / 10)).length + (0 + 1)) +
            (10 * (n / 10) + n % 10) := by
        ring
      rw [hsplit, Nat.div_add_mod]

lemma jsParseInt_jsNatToString (n : ℕ) : jsParseInt (jsNatToString n) = n := by
  show (natDigitsAux (n + 1) n).foldl (fun a c => a * 10 + (c.toNat - 48)) 0 = n
  rw [natDigitsAux_foldl (n + 1) n 0 (Nat.lt_succ_self n)]
  simp

lemma splitOn_append_dashfree (ys : List Char) (hys : ∀ y ∈ ys, ¬ y = '-') :
    ∀ xs : List Char, (xs ++ '-' :: ys).splitOn '-' = xs.splitOn '-' ++ [ys] := by
  intro xs
  induction xs with
  | nil =>
    simp only [List.splitOn, List.nil_append]
    rw [List.splitOnP_cons, if_pos (by simp)]
    rw [List.splitOnP_eq_single _ _ fun x hx => by simpa using hys x hx]
    rw [List.splitOnP_nil]
    rfl
  | cons x xs ih =>
    simp only [List.splitOn, List.cons_append] at *
    rw [List.splitOnP_cons, List.splitOnP_cons]
    by_cases hx : (x == '-') = true
    · rw [if_pos hx, if_pos hx, ih]
      rfl
    · rw [if_neg hx, if_neg hx, ih]
      obtain ⟨a, t, hA⟩ := List.exists_cons_of_ne_nil (List.splitOnP_ne_nil _ xs)
      rw [hA]
      rfl

lemma map_data_map_mk (L : List (List Char)) :
    ((L.map fun l => (⟨l⟩ : String)).map String.data) = L := by
  have hcomp : (String.data ∘ fun l : List Char => (⟨l⟩ : String)) = id := rfl
  rw [List.map_map, hcomp, List.map_id]

lemma parseMarkerKey_buildMarkerKey (c n : String) (i : ℕ)
    (hc : ∀ ch ∈ c.data, ¬ ch = '-') :
    parseMarkerKey (buildMarkerKey c n i) = (c, n, i) := by
  have hdig : ∀ ch ∈ (jsNatToString i).data, ¬ ch = '-' := by
    intro ch hch
    exact natDigitsAux_ne_dash (i + 1) i ch hch
  have hkey : (buildMarkerKey c n i).data =
      c.data ++ '-' :: (n.data ++ '-' :: (jsNatToString i).data) := by
    simp only [buildMarkerKey, String.data_append, List.append_assoc]
    rfl
  have hsplit : (buildMarkerKey c n i).data.splitOn '-' =
      c.data :: (n.data.splitOn '-' ++ [(jsNatToString i).data]) := by
    rw [hkey]
    simp only [List.splitOn]
    rw [List.splitOnP_first _ _ (fun x hx => by simpa using hc x hx) '-' (by simp)
      (n.data ++ '-' :: (jsNatToString i).data)]
    congr 1
    have h2 := splitOn_append_dashfree (jsNatToString i).data hdig n.data
    simpa only [List.splitOn] using h2
  simp only [parseMarkerKey, jsSplit]
  rw [hsplit]
  simp only [List.map_cons, List.map_append, List.map_nil]
  refine Prod.ext rfl (Prod.ext ?_ ?_)
  · show jsJoin "-" ((((n.data.splitOn '-').map fun l => (⟨l⟩ : String)) ++
      [(⟨(jsNatToString i).data⟩ : String)]).dropLast) = n
    rw [List.dropLast_concat]
    show (⟨List.intercalate ['-']
      (((n.data.splitOn '-').map fun l => (⟨l⟩ : String)).map String.data)⟩ : String) = n
    rw [map_data_map_mk, List.intercalate_splitOn n.data '-']
  · show jsParseInt ((((⟨c.data⟩ : String) ::
      ((n.data.splitOn '-').map fun l => (⟨l⟩ : String))) ++
      [(⟨(jsNatToString i).data⟩ : String)]).getLastD "") = i
    rw [List.getLastD_concat]
    exact jsParseInt_jsNatToString i

/-- C9 counterexample: two distinct identity triples — city `a-b` with
pizzeria `c`, and city `a` with pizzeria `b-c`, both at index 1 — encode to
the same marker key, and parsing that key does not recover the first triple:
the encoding is not injective over all city names. -/
theorem markerKey_not_injective :
    buildMarkerKey "a-b" "c" 1 = buildMarkerKey "a" "b-c" 1 ∧
      ("a-b", "c", (1 : ℕ)) ≠ ("a", "b-c", (1 : ℕ)) ∧
      parseMarkerKey (buildMarkerKey "a-b" "c" 1) ≠ ("a-b", "c", (1 : ℕ)) := by
  exact ⟨by decide, by decide, by decide⟩

/-- C9 (amended): when city names contain no `-` character, parsing a marker
key recovers exactly the triple that built it (pizzeria names may contain
`-`, and the index is a decimal number), and consequently the encoding is
injective on such triples. -/
theorem markerKey_roundtrip (c n : String) (i : ℕ) (c2 n2 : String) (i2 : ℕ)
    (hc : ∀ ch ∈ c.data, ch ≠ '-') (hc2 : ∀ ch ∈ c2.data, ch ≠ '-') :
    parseMarkerKey (buildMarkerKey c n i) = (c, n, i) ∧
      (buildMarkerKey c n i = buildMarkerKey c2 n2 i2 →
        c = c2 ∧ n = n2 ∧ i = i2) := by
  have r1 := parseMarkerKey_buildMarkerKey c n i hc
  have r2 := parseMarkerKey_buildMarkerKey c2 n2 i2 hc2
  refine ⟨r1, fun h => ?_⟩
  rw [h, r2] at r1
  simp only [Prod.ext_iff] at r1
  exact ⟨r1.1.symm, r1.2.1.symm, r1.2.2.symm⟩

/-- C9 (amended) witness: the roundtrip and injectivity conclusion evaluated
at concrete dash-free city names (with a dash inside the pizzeria name). -/
theorem markerKey_roundtrip_witness :
    parseMarkerKey (buildMarkerKey "roma" "da-michele" 2) = ("roma", "da-michele", 2) ∧
      (buildMarkerKey "roma" "da-michele" 2 = buildMarkerKey "napoli" "x" 0 →
        "roma" = "napoli" ∧ "da-michele" = "x" ∧ (2 : ℕ) = 0) :=
  markerKey_roundtrip "roma" "da-michele" 2 "napoli" "x" 0 (by decide) (by decide)

end PizzaMap
